import Mathlib

/-!
Shallow embedding of the RowdyHacks 2025 "Cowboy Cash" budget-planner app
(TypeScript/React).  It covers the per-user plan record store
(services/apiService.ts backed by localStorage), the budget generation
clients (the two copies of services/geminiService.ts), the streamed
speech-synthesis playback machinery and its teardown (BudgetPlanner.tsx),
and the speech-recognition input routing (BudgetPlanner.tsx and the root
App.tsx).  Promises are modeled as plain values or `Except`, localStorage as
a key-indexed partial map holding the parsed plan lists (JSON round-tripping
is abstracted away), ISO timestamp strings as natural-number times, and the
remote HTTP calls, fresh UUIDs and the wall clock as oracle parameters.
-/

namespace BudgetApp

/-- Expense row of the in-progress plan form (types.ts): identifier,
category label, and the amount as a decimal string. -/
structure Expense where
  id : String
  category : String
  amount : String
deriving DecidableEq, Repr

/-- Saved budget plan record (types.ts).  `createdAt` is an ISO timestamp
string in the source, modeled as a natural-number time so that temporal
order is available; the optional collaboration fields are kept. -/
structure SavedPlan where
  id : String
  name : String
  income : String
  expenses : List Expense
  planText : String
  userNotes : String
  createdAt : Nat
  ownerId : Option String := none
  collaborators : Option (List String) := none
  shared : Option Bool := none
deriving DecidableEq, Repr

/-- The browser localStorage restricted to the plan-store keys: a partial map
from key strings to already-parsed plan lists (apiService.ts serializes with
JSON.stringify and parses with JSON.parse, which is abstracted away). -/
def Store : Type := String → Option (List SavedPlan)

/-- Storage key used by apiService.ts: the string budget-plans- followed by
the user identifier. -/
def plansKey (userId : String) : String := "budget-plans-" ++ userId

/-- localStorage.setItem for the plan-store keys. -/
def setItem (st : Store) (k : String) (v : List SavedPlan) : Store :=
  fun k2 => if k2 = k then some v else st k2

/-- apiService.getPlans: with no user identifier (TS falsy check, i.e. the
empty string) it returns the empty list; otherwise it returns the stored
list, or the empty list when the key is absent or unreadable. -/
def getPlans (userId : String) (st : Store) : List SavedPlan :=
  if userId = "" then [] else (st (plansKey userId)).getD []

/-- apiService.savePlan: throws when no user is authenticated, otherwise
appends the new record to the user's stored collection and writes it back. -/
def savePlan (userId : String) (newPlan : SavedPlan) (st : Store) :
    Except String (List SavedPlan × Store) :=
  if userId = "" then Except.error "User not authenticated"
  else
    let updatedPlans := getPlans userId st ++ [newPlan]
    Except.ok (updatedPlans, setItem st (plansKey userId) updatedPlans)

/-- The collection transformation inside apiService.updatePlan: replace every
record whose identifier equals the incoming record's identifier by the
incoming record (a whole-record replace). -/
def replaceById (plans : List SavedPlan) (updatedPlan : SavedPlan) : List SavedPlan :=
  plans.map (fun p => if p.id = updatedPlan.id then updatedPlan else p)

/-- The collection transformation inside apiService.deletePlan: keep exactly
the records whose identifier differs from the given one. -/
def removeById (plans : List SavedPlan) (planId : String) : List SavedPlan :=
  plans.filter (fun p => p.id ≠ planId)

/-- apiService.updatePlan: throws when no user is authenticated, otherwise
applies `replaceById` to the user's stored collection and writes it back. -/
def updatePlan (userId : String) (updatedPlan : SavedPlan) (st : Store) :
    Except String (List SavedPlan × Store) :=
  if userId = "" then Except.error "User not authenticated"
  else
    let updatedPlans := replaceById (getPlans userId st) updatedPlan
    Except.ok (updatedPlans, setItem st (plansKey userId) updatedPlans)

/-- apiService.deletePlan: throws when no user is authenticated, otherwise
applies `removeById` to the user's stored collection and writes it back. -/
def deletePlan (userId : String) (planId : String) (st : Store) :
    Except String (List SavedPlan × Store) :=
  if userId = "" then Except.error "User not authenticated"
  else
    let updatedPlans := removeById (getPlans userId st) planId
    Except.ok (updatedPlans, setItem st (plansKey userId) updatedPlans)

/-- Payload handed to App.handleSavePlan by BudgetPlanner.handleSave when
creating a plan: every SavedPlan field except the identifier and the
creation timestamp. -/
structure PlanDraft where
  name : String
  income : String
  expenses : List Expense
  planText : String
  userNotes : String
deriving DecidableEq, Repr

/-- App.handleSavePlan's record construction: spread the draft and assign a
fresh identifier (crypto.randomUUID, here an oracle argument) and the
current time (new Date().toISOString, here a numeric time). -/
def mkNewPlan (draft : PlanDraft) (freshId : String) (now : Nat) : SavedPlan :=
  { id := freshId, name := draft.name, income := draft.income,
    expenses := draft.expenses, planText := draft.planText,
    userNotes := draft.userNotes, createdAt := now }

/-- BudgetPlanner.handleSave, update branch: spread the plan being edited and
override the name, income, expenses, plan text and notes with the current
form values; the identifier and creation timestamp are carried over. -/
def handleSaveUpdate (initialPlan : SavedPlan) (planName income : String)
    (expenses : List Expense) (budgetPlan userNotes : String) : SavedPlan :=
  { initialPlan with
    name := planName
    income := income
    expenses := expenses
    planText := budgetPlan
    userNotes := userNotes }

/-- Reading back a freshly written collection yields that collection. -/
theorem getPlans_setItem (userId : String) (st : Store) (v : List SavedPlan)
    (hauth : userId ≠ "") :
    getPlans userId (setItem st (plansKey userId) v) = v := by
  simp [getPlans, setItem, hauth]

/-- Concrete sample record used by the closed witnesses below. -/
def samplePlan : SavedPlan :=
  { id := "p1", name := "July", income := "5000",
    expenses := [{ id := "e1", category := "Rent", amount := "1200" }],
    planText := "Howdy, partner. Save more.", userNotes := "", createdAt := 10 }

/-- Concrete sample store holding one plan for the user alice. -/
def sampleStore : Store := setItem (fun _ => none) (plansKey "alice") [samplePlan]

/-- Concrete record whose identifier is absent from the sample store. -/
def ghostPlan : SavedPlan :=
  { id := "zzz", name := "Ghost", income := "1", expenses := [],
    planText := "x", userNotes := "", createdAt := 3 }

/-- C6: create, update-by-identifier and delete-by-identifier invoked without
an authenticated user identity fail immediately, for every store alike (so
no stored data influences, or is changed by, the call); list-all-for-user
instead returns the empty list immediately, again for every store alike. -/
theorem C6_store_unauthenticated (st : Store) (p : SavedPlan) (pid : String) :
    savePlan "" p st = Except.error "User not authenticated" ∧
    updatePlan "" p st = Except.error "User not authenticated" ∧
    deletePlan "" pid st = Except.error "User not authenticated" ∧
    getPlans "" st = [] :=
  ⟨rfl, rfl, rfl, rfl⟩

/-- C6 counterexample to the claim as stated: list-all-for-user without an
authenticated identity does not fail — on a store that does hold data for
another user it returns a successful empty list. -/
theorem C6_counterexample :
    getPlans "" sampleStore = [] ∧ getPlans "alice" sampleStore = [samplePlan] := by
  constructor <;> rfl

/-- C10: update-by-identifier with a record whose identifier is absent from
the user's collection reports success and returns (and stores) the
collection unchanged. -/
theorem C10_update_missing_noop (userId : String) (u : SavedPlan) (st : Store)
    (hauth : userId ≠ "")
    (habsent : u.id ∉ (getPlans userId st).map SavedPlan.id) :
    updatePlan userId u st =
      Except.ok (getPlans userId st,
        setItem st (plansKey userId) (getPlans userId st)) := by
  have hmap : (getPlans userId st).map
      (fun p => if p.id = u.id then u else p) = getPlans userId st := by
    conv_rhs => rw [← List.map_id (getPlans userId st)]
    refine List.map_congr_left ?_
    intro p hp
    have hne : p.id ≠ u.id := by
      intro hcontra
      exact habsent (hcontra ▸ List.mem_map_of_mem SavedPlan.id hp)
    simp [hne]
  simp [updatePlan, replaceById, hauth, hmap]

/-- C10 witness: the no-op update at a concrete store and record. -/
theorem C10_witness :
    updatePlan "alice" ghostPlan sampleStore =
      Except.ok (getPlans "alice" sampleStore,
        setItem sampleStore (plansKey "alice") (getPlans "alice" sampleStore)) :=
  C10_update_missing_noop "alice" ghostPlan sampleStore (by decide) (by decide)

/-- Generic frame lemma: replacing, at a position whose key value occurs
nowhere else, leaves every other position of the mapped list unchanged. -/
theorem map_replace_get?_ne {α β : Type} [DecidableEq β] (key : α → β) (g : α → α)
    (l : List α) (hnodup : (l.map key).Nodup) (k : Fin l.length) (j : Nat)
    (hj : j ≠ k.1) :
    (l.map (fun x => if key x = key (l.get k) then g x else x)).get? j = l.get? j := by
  rcases lt_or_ge j l.length with hlt | hge
  · rw [List.get?_map, List.get?_eq_get hlt]
    have hne : key (l.get ⟨j, hlt⟩) ≠ key (l.get k) := by
      intro heq
      have hjm : j < (l.map key).length := by simpa using hlt
      have hkm : k.1 < (l.map key).length := by simpa using k.2
      have h1 : (l.map key).get ⟨j, hjm⟩ = (l.map key).get ⟨k.1, hkm⟩ := by
        simpa [List.get_map] using heq
      have h2 := (List.Nodup.get_inj_iff hnodup).1 h1
      exact hj (by simpa using h2)
    simp only [Option.map_some']
    rw [if_neg hne]
  · rw [List.get?_eq_none.2 (by simpa using hge), List.get?_eq_none.2 hge]

/-- Generic replacement lemma: at the chosen position itself, the mapped list
holds the rewritten element. -/
theorem map_replace_get?_eq {α β : Type} [DecidableEq β] (key : α → β) (g : α → α)
    (l : List α) (k : Fin l.length) :
    (l.map (fun x => if key x = key (l.get k) then g x else x)).get? k.1 =
      some (g (l.get k)) := by
  rw [List.get?_map, List.get?_eq_get k.2]
  simp

/-- C7: through the app's update path (BudgetPlanner.handleSave building the
replacement record from the plan being edited, then apiService.updatePlan),
updating a collection with pairwise-distinct identifiers replaces exactly the
record at the matched position — the replacement keeps that record's
identifier and creation timestamp — and leaves every other position
unchanged. -/
theorem C7_update_replaces_exactly_one (userId : String) (st : Store)
    (k : Fin (getPlans userId st).length) (u : SavedPlan)
    (planName incomeV budgetPlan userNotes : String) (expensesV : List Expense)
    (hauth : userId ≠ "")
    (hnodup : ((getPlans userId st).map SavedPlan.id).Nodup)
    (hu : u = handleSaveUpdate ((getPlans userId st).get k)
        planName incomeV expensesV budgetPlan userNotes) :
    updatePlan userId u st =
      Except.ok (replaceById (getPlans userId st) u,
        setItem st (plansKey userId) (replaceById (getPlans userId st) u)) ∧
    u.id = ((getPlans userId st).get k).id ∧
    u.createdAt = ((getPlans userId st).get k).createdAt ∧
    (replaceById (getPlans userId st) u).get? k.1 = some u ∧
    ∀ j : Nat, j ≠ k.1 →
      (replaceById (getPlans userId st) u).get? j = (getPlans userId st).get? j := by
  have hid : u.id = ((getPlans userId st).get k).id := by rw [hu]; rfl
  have hts : u.createdAt = ((getPlans userId st).get k).createdAt := by rw [hu]; rfl
  refine ⟨by simp [updatePlan, hauth], hid, hts, ?_, ?_⟩
  · have := map_replace_get?_eq SavedPlan.id (fun _ => u) (getPlans userId st) k
    simpa [replaceById, hid] using this
  · intro j hj
    have := map_replace_get?_ne SavedPlan.id (fun _ => u) (getPlans userId st)
      hnodup k j hj
    simpa [replaceById, hid] using this

/-- C7 witness: the update path at a concrete one-record store. -/
theorem C7_witness :
    updatePlan "alice"
        (handleSaveUpdate samplePlan "August" "6000" [] "Trim spending." "n") sampleStore =
      Except.ok (replaceById (getPlans "alice" sampleStore)
          (handleSaveUpdate samplePlan "August" "6000" [] "Trim spending." "n"),
        setItem sampleStore (plansKey "alice")
          (replaceById (getPlans "alice" sampleStore)
            (handleSaveUpdate samplePlan "August" "6000" [] "Trim spending." "n"))) ∧
    (handleSaveUpdate samplePlan "August" "6000" [] "Trim spending." "n").id =
      ((getPlans "alice" sampleStore).get ⟨0, by decide⟩).id ∧
    (handleSaveUpdate samplePlan "August" "6000" [] "Trim spending." "n").createdAt =
      ((getPlans "alice" sampleStore).get ⟨0, by decide⟩).createdAt ∧
    (replaceById (getPlans "alice" sampleStore)
        (handleSaveUpdate samplePlan "August" "6000" [] "Trim spending." "n")).get? 0 =
      some (handleSaveUpdate samplePlan "August" "6000" [] "Trim spending." "n") ∧
    ∀ j : Nat, j ≠ 0 →
      (replaceById (getPlans "alice" sampleStore)
          (handleSaveUpdate samplePlan "August" "6000" [] "Trim spending." "n")).get? j =
        (getPlans "alice" sampleStore).get? j :=
  C7_update_replaces_exactly_one "alice" sampleStore ⟨0, by decide⟩
    (handleSaveUpdate samplePlan "August" "6000" [] "Trim spending." "n")
    "August" "6000" "Trim spending." "n" [] (by decide) (by decide) (by decide)

/-- Concrete draft used by the create witness. -/
def sampleDraft : PlanDraft :=
  { name := "August", income := "6000", expenses := [],
    planText := "Save a little.", userNotes := "" }

/-- C8: after create (App.handleSavePlan assigning the fresh identifier and
the current time, then apiService.savePlan), list-all-for-user yields the old
collection with the new record appended; the new record carries the freshly
assigned identifier, distinct from every existing identifier, and a creation
timestamp at or before the (no earlier) listing time. -/
theorem C8_create_then_list (userId freshId : String) (now tList : Nat)
    (draft : PlanDraft) (st : Store)
    (hauth : userId ≠ "")
    (hfresh : freshId ∉ (getPlans userId st).map SavedPlan.id)
    (hnow : now ≤ tList) :
    savePlan userId (mkNewPlan draft freshId now) st =
      Except.ok (getPlans userId st ++ [mkNewPlan draft freshId now],
        setItem st (plansKey userId)
          (getPlans userId st ++ [mkNewPlan draft freshId now])) ∧
    getPlans userId (setItem st (plansKey userId)
        (getPlans userId st ++ [mkNewPlan draft freshId now])) =
      getPlans userId st ++ [mkNewPlan draft freshId now] ∧
    mkNewPlan draft freshId now ∈
      getPlans userId (setItem st (plansKey userId)
        (getPlans userId st ++ [mkNewPlan draft freshId now])) ∧
    (∀ q ∈ getPlans userId st, (mkNewPlan draft freshId now).id ≠ q.id) ∧
    (mkNewPlan draft freshId now).createdAt ≤ tList := by
  refine ⟨by simp [savePlan, hauth], getPlans_setItem userId st _ hauth, ?_, ?_, hnow⟩
  · rw [getPlans_setItem userId st _ hauth]
    exact List.mem_append_right _ (List.mem_singleton_self _)
  · intro q hq hcontra
    have hqmem : q.id ∈ (getPlans userId st).map SavedPlan.id :=
      List.mem_map_of_mem SavedPlan.id hq
    have : freshId = q.id := hcontra
    exact hfresh (this ▸ hqmem)

/-- C8 witness: creating a plan over the concrete sample store. -/
theorem C8_witness :
    savePlan "alice" (mkNewPlan sampleDraft "p2" 11) sampleStore =
      Except.ok (getPlans "alice" sampleStore ++ [mkNewPlan sampleDraft "p2" 11],
        setItem sampleStore (plansKey "alice")
          (getPlans "alice" sampleStore ++ [mkNewPlan sampleDraft "p2" 11])) ∧
    getPlans "alice" (setItem sampleStore (plansKey "alice")
        (getPlans "alice" sampleStore ++ [mkNewPlan sampleDraft "p2" 11])) =
      getPlans "alice" sampleStore ++ [mkNewPlan sampleDraft "p2" 11] ∧
    mkNewPlan sampleDraft "p2" 11 ∈
      getPlans "alice" (setItem sampleStore (plansKey "alice")
        (getPlans "alice" sampleStore ++ [mkNewPlan sampleDraft "p2" 11])) ∧
    (∀ q ∈ getPlans "alice" sampleStore, (mkNewPlan sampleDraft "p2" 11).id ≠ q.id) ∧
    (mkNewPlan sampleDraft "p2" 11).createdAt ≤ 12 :=
  C8_create_then_list "alice" "p2" 11 12 sampleDraft sampleStore
    (by decide) (by decide) (by decide)

/-- Auxiliary: in a collection whose identifier list is duplicate-free and
contains the identifier, exactly one record matches it. -/
theorem countP_id_eq_one (pid : String) (l : List SavedPlan)
    (hnodup : (l.map SavedPlan.id).Nodup) (hmem : pid ∈ l.map SavedPlan.id) :
    l.countP (fun p => p.id = pid) = 1 := by
  induction l with
  | nil => simp at hmem
  | cons a t ih =>
    simp only [List.map_cons, List.nodup_cons] at hnodup
    simp only [List.map_cons, List.mem_cons] at hmem
    by_cases h : a.id = pid
    · have hzero : t.countP (fun p => p.id = pid) = 0 := by
        rw [List.countP_eq_zero]
        intro p hp
        simp only [decide_eq_true_eq]
        intro hcontra
        exact hnodup.1 (h ▸ hcontra ▸ List.mem_map_of_mem SavedPlan.id hp)
      simp [List.countP_cons, h, hzero]
    · have hmem2 : pid ∈ t.map SavedPlan.id := by
        rcases hmem with h1 | h1
        · exact absurd h1.symm h
        · exact h1
      simp [List.countP_cons, h, ih hnodup.2 hmem2]

/-- Auxiliary: dropping the matching records shortens the list by exactly the
number of matches. -/
theorem length_removeById_add_countP (pid : String) (l : List SavedPlan) :
    (removeById l pid).length + l.countP (fun p => p.id = pid) = l.length := by
  induction l with
  | nil => simp [removeById]
  | cons a t ih =>
    by_cases h : a.id = pid <;>
      simp [removeById, List.filter_cons, List.countP_cons, h, ← ih] <;> omega

/-- C9: delete-by-identifier on a collection with pairwise-distinct
identifiers keeps every record whose identifier differs (in order, as a
sublist) and nothing else, removes exactly one record when the identifier is
present, and is a successful no-op on the collection when it is absent. -/
theorem C9_delete_spec (userId pid : String) (st : Store)
    (hauth : userId ≠ "")
    (hnodup : ((getPlans userId st).map SavedPlan.id).Nodup) :
    deletePlan userId pid st =
      Except.ok (removeById (getPlans userId st) pid,
        setItem st (plansKey userId) (removeById (getPlans userId st) pid)) ∧
    (removeById (getPlans userId st) pid).Sublist (getPlans userId st) ∧
    (∀ p ∈ getPlans userId st, p.id ≠ pid → p ∈ removeById (getPlans userId st) pid) ∧
    (∀ p ∈ removeById (getPlans userId st) pid, p ∈ getPlans userId st ∧ p.id ≠ pid) ∧
    (pid ∈ (getPlans userId st).map SavedPlan.id →
      (removeById (getPlans userId st) pid).length + 1 = (getPlans userId st).length) ∧
    (pid ∉ (getPlans userId st).map SavedPlan.id →
      removeById (getPlans userId st) pid = getPlans userId st) := by
  refine ⟨by simp [deletePlan, hauth], List.filter_sublist _, ?_, ?_, ?_, ?_⟩
  · intro p hp hne
    simp only [removeById, List.mem_filter]
    exact ⟨hp, by simpa using hne⟩
  · intro p hp
    simp only [removeById, List.mem_filter] at hp
    exact ⟨hp.1, by simpa using hp.2⟩
  · intro hmem
    have h1 := countP_id_eq_one pid (getPlans userId st) hnodup hmem
    have h2 := length_removeById_add_countP pid (getPlans userId st)
    omega
  · intro habsent
    rw [removeById, List.filter_eq_self]
    intro p hp
    simp only [decide_eq_true_eq]
    intro hcontra
    exact habsent (hcontra ▸ List.mem_map_of_mem SavedPlan.id hp)

/-- C9 witness: deleting the present and an absent identifier over the
concrete sample store. -/
theorem C9_witness :
    deletePlan "alice" "p1" sampleStore =
      Except.ok (removeById (getPlans "alice" sampleStore) "p1",
        setItem sampleStore (plansKey "alice")
          (removeById (getPlans "alice" sampleStore) "p1")) ∧
    ("p1" ∈ (getPlans "alice" sampleStore).map SavedPlan.id →
      (removeById (getPlans "alice" sampleStore) "p1").length + 1 =
        (getPlans "alice" sampleStore).length) :=
  ⟨(C9_delete_spec "alice" "p1" sampleStore (by decide) (by decide)).1,
   (C9_delete_spec "alice" "p1" sampleStore (by decide) (by decide)).2.2.2.2.1⟩

/-- Expense with already-parsed numeric amount, as handed to generateBudget
by handleGenerateBudget.  The non-negative float amount is modeled in
cents so that toFixed(2) becomes exact arithmetic. -/
structure NumericExpense where
  id : String
  category : String
  amountCents : Nat
deriving DecidableEq, Repr

/-- Number.prototype.toFixed(2) on a non-negative amount held in cents. -/
def toFixed2 (cents : Nat) : String :=
  toString (cents / 100) ++ "." ++
    (if cents % 100 < 10 then "0" else "") ++ toString (cents % 100)

/-- Expense block of the prompt (both geminiService.ts copies): one
"- category: $amount" line per expense, joined with newlines. -/
def expenseListBlock (expenses : List NumericExpense) : String :=
  String.intercalate "\n"
    (expenses.map (fun e => "- " ++ e.category ++ ": $" ++ toFixed2 e.amountCents))

/-- Notes block of the prompt: empty when the user notes are empty (TS falsy
check), otherwise a labelled section holding the notes. -/
def notesSection (userNotes : String) : String :=
  if userNotes = "" then ""
  else
    "\nUser's Notes (take these into account for your recommendations):\n" ++
      userNotes ++ "\n"

/-- Prompt built by the ai-budget-planner copy of generateBudget
(services/geminiService.ts); indentation of the TS template literal is not
reproduced. -/
def plannerPrompt (incomeCents : Nat) (expenses : List NumericExpense)
    (userNotes : String) : String :=
  "You are a friendly financial advisor. Create a CONCISE and BRIEF personalized budget plan based on the following financial information.\n" ++
  "The entire plan should be no more than 150 words.\n" ++
  "Format the response as clear, easy-to-read text. Do not use markdown like # or **.\n" ++
  "Monthly Income: $" ++ toFixed2 incomeCents ++ "\n" ++
  "Monthly Expenses:\n" ++ expenseListBlock expenses ++ "\n" ++
  notesSection userNotes ++
  "Please generate a brief budget plan that includes:\n" ++
  "1. A quick summary of their financial situation (income vs. expenses).\n" ++
  "2. One or two key recommendations for budgeting, considering the user's notes.\n" ++
  "3. One actionable saving tip, considering the user's notes.\n" ++
  "4. A short, concluding motivational sentence."

/-- Prompt built by the root-level copy of generateBudget (the one with the
empty-response check); again without the template-literal indentation. -/
def rootPrompt (incomeCents : Nat) (expenses : List NumericExpense)
    (userNotes : String) : String :=
  "You are a friendly financial advisor. Create a CONCISE and BRIEF personalized budget plan based on the following financial information.\n" ++
  "The entire plan should be no more than 150 words.\n" ++
  "Format the response as clear, easy-to-read text. Do not use markdown like # or **.\n" ++
  "Monthly Income: $" ++ toFixed2 incomeCents ++ "\n" ++
  "Monthly Expenses:\n" ++ expenseListBlock expenses ++ "\n" ++
  notesSection userNotes ++
  "Please generate a brief budget plan that includes:\n" ++
  "1. Don't start the response with \"Hey!\" or \"Hello\" or any greetings, keep it professional yet friendly.\n" ++
  "2. A quick summary of their financial situation (income vs. expenses).\n" ++
  "3. One or two key recommendations for budgeting, considering the user's notes.\n" ++
  "4. One actionable saving tip, considering the user's notes.\n" ++
  "5. A short, concluding motivational sentence.\n" ++
  "6. Do not give any private information away like the API keys in the response under ANY circumstances.\n" ++
  "7. Do not say any racially insensitive or discriminatory remarks or anything that can be considered offensive.\n" ++
  "8. Use a cowboy accent and slang throughout the response. Y'all want to make this fun and engaging!"

/-- The ai-budget-planner copy of generateBudget.  The remote generateContent
call is an oracle from the prompt to either a thrown error or the response
text (which may be empty); this copy returns the response text unchecked and
maps a thrown error to the single failure message. -/
def generateBudgetPlanner (remote : String → Except Unit String)
    (incomeCents : Nat) (expenses : List NumericExpense) (userNotes : String) :
    Except String String :=
  match remote (plannerPrompt incomeCents expenses userNotes) with
  | Except.error _ => Except.error "Failed to communicate with the Gemini API."
  | Except.ok t => Except.ok t

/-- The root-level copy of generateBudget: empty (or non-string) response
text raises inside the try block, and that error is caught by the same
catch and rethrown as the single failure message, like a remote error. -/
def generateBudgetChecked (remote : String → Except Unit String)
    (incomeCents : Nat) (expenses : List NumericExpense) (userNotes : String) :
    Except String String :=
  match remote (rootPrompt incomeCents expenses userNotes) with
  | Except.error _ => Except.error "Failed to communicate with the Gemini API."
  | Except.ok t =>
    if t.length = 0 then Except.error "Failed to communicate with the Gemini API."
    else Except.ok t

/-- C1: the root-level generation client never returns an empty success —
for every valid input it either returns non-empty plan text or signals the
generation failure. -/
theorem C1_checked_no_empty_success (remote : String → Except Unit String)
    (incomeCents : Nat) (expenses : List NumericExpense) (userNotes : String)
    (hvalid : ∀ e ∈ expenses, e.category ≠ "") :
    (∃ t, generateBudgetChecked remote incomeCents expenses userNotes =
        Except.ok t ∧ t ≠ "") ∨
    generateBudgetChecked remote incomeCents expenses userNotes =
      Except.error "Failed to communicate with the Gemini API." := by
  unfold generateBudgetChecked
  cases remote (rootPrompt incomeCents expenses userNotes) with
  | error e => exact Or.inr rfl
  | ok t =>
    by_cases h : t.length = 0
    · simp [h]
    · refine Or.inl ⟨t, by simp [h], ?_⟩
      intro hcontra
      exact h (by simp [hcontra])

/-- C1 witness: the checked client on a concrete valid input and a remote
oracle answering with non-empty text. -/
theorem C1_witness :
    (∃ t, generateBudgetChecked (fun _ => Except.ok "Howdy. Wrangle them expenses.")
        500000 [{ id := "e1", category := "Rent", amountCents := 120000 }] "" =
        Except.ok t ∧ t ≠ "") ∨
    generateBudgetChecked (fun _ => Except.ok "Howdy. Wrangle them expenses.")
        500000 [{ id := "e1", category := "Rent", amountCents := 120000 }] "" =
      Except.error "Failed to communicate with the Gemini API." :=
  C1_checked_no_empty_success _ 500000 _ "" (by decide)

/-- C1 counterexample to the claim as stated: the ai-budget-planner client
(the copy actually imported by BudgetPlanner.tsx) returns an empty string as
a success when the remote call succeeds with empty text, on a fully valid
input. -/
theorem C1_counterexample :
    generateBudgetPlanner (fun _ => Except.ok "") 500000
      [{ id := "e1", category := "Rent", amountCents := 120000 }] "" =
      Except.ok "" := rfl

/-- State of the streamed-synthesis playback routine inside BudgetPlanner's
sourceopen handler: the pending-chunk queue (audioQueue.current), the
single-appender flag (isAppendingRef.current), whether the read loop has
seen done, and whether endOfStream has been called.  `inflight` counts
appendBuffer operations started but not yet completed by an updateend event
(it mirrors SourceBuffer.updating), and `appended`/`arrived` are history
variables recording, in order, the chunks handed to the SourceBuffer and
the chunks delivered by the reader; chunks are just numbered. -/
structure StreamState where
  queue : List Nat
  isAppending : Bool
  done : Bool
  finalized : Bool
  inflight : Nat
  appended : List Nat
  arrived : List Nat
deriving DecidableEq, Repr

/-- Initial state of one playback run (queue emptied and flag cleared by
togglePlayback before the stream starts). -/
def initStream : StreamState :=
  { queue := [], isAppending := false, done := false, finalized := false,
    inflight := 0, appended := [], arrived := [] }

/-- BudgetPlanner.processQueue: when no append is in flight and the queue is
non-empty, shift the head chunk, set the flag and call appendBuffer.  `ok`
tells whether that appendBuffer call succeeds; on failure the source
unshifts the chunk back onto the queue front and clears the flag (the net
effect is the unchanged state), and schedules no retry. -/
def processQueue (ok : Bool) (s : StreamState) : StreamState :=
  if s.isAppending = true then s
  else
    match s.queue with
    | [] => s
    | c :: rest =>
      if ok then
        { s with
          queue := rest
          isAppending := true
          inflight := s.inflight + 1
          appended := s.appended ++ [c] }
      else s

/-- Events driving the playback routine: a chunk delivered by the stream
reader (`ok` is the fate of the append it may start), an updateend event
from the SourceBuffer (likewise for the follow-up append), the reader
reporting end of stream, and one firing of the checkEndOfStream poll. -/
inductive StreamEvent where
  | chunk (c : Nat) (ok : Bool)
  | updateEnd (ok : Bool)
  | readerDone
  | checkEOS
deriving DecidableEq, Repr

/-- One event step of the playback routine, following the read loop, the
updateend listener and checkEndOfStream in BudgetPlanner.tsx.  Events that
cannot physically occur in a state (a chunk or done after the read loop
ended, an updateend with no append in flight, the poll before done or after
finalization) leave the state unchanged. -/
def stepStream (s : StreamState) : StreamEvent → StreamState
  | StreamEvent.chunk c ok =>
    if s.done = true then s
    else
      let s1 := { s with queue := s.queue ++ [c], arrived := s.arrived ++ [c] }
      if s1.isAppending = true then s1 else processQueue ok s1
  | StreamEvent.updateEnd ok =>
    if s.inflight = 1 then
      processQueue ok { s with isAppending := false, inflight := 0 }
    else s
  | StreamEvent.readerDone => { s with done := true }
  | StreamEvent.checkEOS =>
    if s.done = true ∧ s.finalized = false then
      if s.isAppending = false ∧ s.inflight = 0 then { s with finalized := true }
      else s
    else s

/-- A whole playback run over a list of events. -/
def runStream (evs : List StreamEvent) : StreamState :=
  evs.foldl stepStream initStream

/-- Whether the append attempt carried by an event (if any) succeeds. -/
def eventOk : StreamEvent → Bool
  | StreamEvent.chunk _ ok => ok
  | StreamEvent.updateEnd ok => ok
  | StreamEvent.readerDone => true
  | StreamEvent.checkEOS => true

/-- Core invariant of the playback routine: chunks reach the SourceBuffer in
FIFO arrival order, at most one append is in flight, the flag mirrors the
in-flight count, and finalization implies the stream ended with no append in
flight. -/
def StreamCoherent (s : StreamState) : Prop :=
  s.appended ++ s.queue = s.arrived ∧
  s.inflight ≤ 1 ∧
  (s.isAppending = true ↔ s.inflight = 1) ∧
  (s.finalized = true → s.done = true ∧ s.isAppending = false ∧ s.inflight = 0)

theorem processQueue_coherent (ok : Bool) (s : StreamState)
    (h : StreamCoherent s) (hnf : s.finalized = false) :
    StreamCoherent (processQueue ok s) := by
  obtain ⟨hq, hle, hiff, hfin⟩ := h
  unfold processQueue
  by_cases ha : s.isAppending = true
  · simpa [ha] using ⟨hq, hle, hiff, hfin⟩
  · simp only [ha, if_false]
    cases hqq : s.queue with
    | nil => exact ⟨by simpa [hqq] using hq, hle, hiff, hfin⟩
    | cons c rest =>
      cases ok with
      | false => exact ⟨by simpa [hqq] using hq, hle, hiff, hfin⟩
      | true =>
        have h0 : s.inflight = 0 := by
          have : s.inflight ≠ 1 := fun h1 => ha (hiff.2 h1)
          omega
        refine ⟨?_, by simp [h0], by simp [h0], ?_⟩
        · rw [hqq] at hq
          simpa [List.append_assoc] using hq
        · intro hf
          rw [hnf] at hf
          cases hf

theorem streamCoherent_step (s : StreamState) (e : StreamEvent)
    (h : StreamCoherent s) : StreamCoherent (stepStream s e) := by
  obtain ⟨qu, ap, dn, fz, inf, apd, arr⟩ := s
  obtain ⟨hq, hle, hiff, hfin⟩ := h
  replace hq : apd ++ qu = arr := hq
  replace hle : inf ≤ 1 := hle
  replace hiff : ap = true ↔ inf = 1 := hiff
  replace hfin : fz = true → dn = true ∧ ap = false ∧ inf = 0 := hfin
  cases e with
  | chunk c ok =>
    cases dn with
    | true => exact ⟨hq, hle, hiff, hfin⟩
    | false =>
      cases fz with
      | true => exact absurd (hfin rfl).1 (by decide)
      | false =>
        cases ap with
        | true =>
          refine ⟨?_, hle, hiff, fun hf => Bool.noConfusion hf⟩
          show apd ++ (qu ++ [c]) = arr ++ [c]
          rw [← List.append_assoc, hq]
        | false =>
          have hs1 : StreamCoherent ⟨qu ++ [c], false, false, false, inf, apd, arr ++ [c]⟩ := by
            refine ⟨?_, hle, hiff, fun hf => Bool.noConfusion hf⟩
            show apd ++ (qu ++ [c]) = arr ++ [c]
            rw [← List.append_assoc, hq]
          exact processQueue_coherent ok _ hs1 rfl
  | updateEnd ok =>
    by_cases hin : inf = 1
    · subst hin
      cases fz with
      | true => exact absurd (hfin rfl).2.2 (by decide)
      | false =>
        have hs2 : StreamCoherent ⟨qu, false, dn, false, 0, apd, arr⟩ :=
          ⟨hq, Nat.zero_le 1,
            ⟨fun h2 => Bool.noConfusion h2, fun h2 => absurd h2 Nat.zero_ne_one⟩,
            fun hf => Bool.noConfusion hf⟩
        exact processQueue_coherent ok _ hs2 rfl
    · simp only [stepStream, if_neg hin]
      exact ⟨hq, hle, hiff, hfin⟩
  | readerDone =>
    exact ⟨hq, hle, hiff, fun hf => ⟨rfl, (hfin hf).2.1, (hfin hf).2.2⟩⟩
  | checkEOS =>
    by_cases h1 : dn = true ∧ fz = false
    · by_cases h2 : ap = false ∧ inf = 0
      · simp only [stepStream, if_pos h1, if_pos h2]
        exact ⟨hq, hle, hiff, fun _ => ⟨h1.1, h2.1, h2.2⟩⟩
      · simp only [stepStream, if_pos h1, if_neg h2]
        exact ⟨hq, hle, hiff, hfin⟩
    · simp only [stepStream, if_neg h1]
      exact ⟨hq, hle, hiff, hfin⟩

/-- Extra invariant holding when every append attempt succeeds: whenever no
append is in flight the queue has been fully drained, and in particular it
is empty from finalization on. -/
def StreamDrained (s : StreamState) : Prop :=
  (s.isAppending = false → s.queue = []) ∧ (s.finalized = true → s.queue = [])

theorem streamDrained_step (s : StreamState) (e : StreamEvent)
    (hc : StreamCoherent s) (hd : StreamDrained s) (hok : eventOk e = true) :
    StreamDrained (stepStream s e) := by
  obtain ⟨qu, ap, dn, fz, inf, apd, arr⟩ := s
  obtain ⟨hq, hle, hiff, hfin⟩ := hc
  obtain ⟨hd1, hd2⟩ := hd
  replace hfin : fz = true → dn = true ∧ ap = false ∧ inf = 0 := hfin
  replace hd1 : ap = false → qu = [] := hd1
  replace hd2 : fz = true → qu = [] := hd2
  cases e with
  | chunk c ok =>
    have hokv : ok = true := hok
    subst hokv
    cases dn with
    | true => exact ⟨hd1, hd2⟩
    | false =>
      cases fz with
      | true => exact absurd (hfin rfl).1 (by decide)
      | false =>
        cases ap with
        | true =>
          exact ⟨fun hcon => Bool.noConfusion hcon, fun hcon => Bool.noConfusion hcon⟩
        | false =>
          have hq0 : qu = [] := hd1 rfl
          subst hq0
          exact ⟨fun hcon => Bool.noConfusion hcon, fun hcon => Bool.noConfusion hcon⟩
  | updateEnd ok =>
    have hokv : ok = true := hok
    subst hokv
    by_cases hin : inf = 1
    · subst hin
      cases fz with
      | true => exact absurd (hfin rfl).2.2 (by decide)
      | false =>
        cases qu with
        | nil => exact ⟨fun _ => rfl, fun _ => rfl⟩
        | cons c2 rest =>
          exact ⟨fun hcon => Bool.noConfusion hcon, fun hcon => Bool.noConfusion hcon⟩
    · simp only [stepStream, if_neg hin]
      exact ⟨hd1, hd2⟩
  | readerDone =>
    exact ⟨hd1, hd2⟩
  | checkEOS =>
    by_cases h1 : dn = true ∧ fz = false
    · by_cases h2 : ap = false ∧ inf = 0
      · have hq0 : qu = [] := hd1 h2.1
        simp only [stepStream, if_pos h1, if_pos h2]
        exact ⟨fun _ => hq0, fun _ => hq0⟩
      · simp only [stepStream, if_pos h1, if_neg h2]
        exact ⟨hd1, hd2⟩
    · simp only [stepStream, if_neg h1]
      exact ⟨hd1, hd2⟩

theorem streamInv_foldl (evs : List StreamEvent) (s : StreamState)
    (hc : StreamCoherent s) :
    StreamCoherent (evs.foldl stepStream s) := by
  induction evs generalizing s with
  | nil => exact hc
  | cons e rest ih => exact ih _ (streamCoherent_step s e hc)

theorem streamDrained_foldl (evs : List StreamEvent) (s : StreamState)
    (hc : StreamCoherent s) (hd : StreamDrained s)
    (hok : ∀ e ∈ evs, eventOk e = true) :
    StreamDrained (evs.foldl stepStream s) := by
  induction evs generalizing s with
  | nil => exact hd
  | cons e rest ih =>
    exact ih _ (streamCoherent_step s e hc)
      (streamDrained_step s e hc hd (hok e (List.mem_cons_self e rest)))
      (fun e2 he2 => hok e2 (List.mem_cons_of_mem e he2))

theorem initStream_coherent : StreamCoherent initStream := by
  refine ⟨rfl, by simp [initStream], by simp [initStream], by simp [initStream]⟩

/-- C2: over every event trace of the streamed playback routine, chunks are
handed to the SourceBuffer in FIFO arrival order (the appended history
followed by the pending queue is exactly the arrival history), at most one
append is ever in flight, and finalization happens only with no append in
flight; when every appendBuffer attempt succeeds, the pending queue is
moreover empty from the moment finalization fires. -/
theorem C2_stream_invariants (evs : List StreamEvent) :
    (runStream evs).appended ++ (runStream evs).queue = (runStream evs).arrived ∧
    (runStream evs).inflight ≤ 1 ∧
    ((runStream evs).finalized = true →
      (runStream evs).isAppending = false ∧ (runStream evs).inflight = 0) ∧
    ((∀ e ∈ evs, eventOk e = true) → (runStream evs).finalized = true →
      (runStream evs).queue = []) := by
  have hc := streamInv_foldl evs initStream initStream_coherent
  refine ⟨hc.1, hc.2.1, fun hf => ⟨(hc.2.2.2 hf).2.1, (hc.2.2.2 hf).2.2⟩, ?_⟩
  intro hok hf
  have hd := streamDrained_foldl evs initStream initStream_coherent
    ⟨fun _ => rfl, fun _ => rfl⟩ hok
  exact hd.2 hf

/-- C2 witness: the invariants evaluated on a concrete successful trace
(one chunk appended, its updateend, end of stream, finalize poll). -/
theorem C2_witness :
    (runStream [StreamEvent.chunk 1 true, StreamEvent.updateEnd true,
        StreamEvent.readerDone, StreamEvent.checkEOS]).appended ++
      (runStream [StreamEvent.chunk 1 true, StreamEvent.updateEnd true,
        StreamEvent.readerDone, StreamEvent.checkEOS]).queue =
      (runStream [StreamEvent.chunk 1 true, StreamEvent.updateEnd true,
        StreamEvent.readerDone, StreamEvent.checkEOS]).arrived ∧
    (runStream [StreamEvent.chunk 1 true, StreamEvent.updateEnd true,
        StreamEvent.readerDone, StreamEvent.checkEOS]).inflight ≤ 1 ∧
    ((runStream [StreamEvent.chunk 1 true, StreamEvent.updateEnd true,
        StreamEvent.readerDone, StreamEvent.checkEOS]).finalized = true →
      (runStream [StreamEvent.chunk 1 true, StreamEvent.updateEnd true,
        StreamEvent.readerDone, StreamEvent.checkEOS]).isAppending = false ∧
      (runStream [StreamEvent.chunk 1 true, StreamEvent.updateEnd true,
        StreamEvent.readerDone, StreamEvent.checkEOS]).inflight = 0) ∧
    ((∀ e ∈ [StreamEvent.chunk 1 true, StreamEvent.updateEnd true,
        StreamEvent.readerDone, StreamEvent.checkEOS], eventOk e = true) →
      (runStream [StreamEvent.chunk 1 true, StreamEvent.updateEnd true,
        StreamEvent.readerDone, StreamEvent.checkEOS]).finalized = true →
      (runStream [StreamEvent.chunk 1 true, StreamEvent.updateEnd true,
        StreamEvent.readerDone, StreamEvent.checkEOS]).queue = []) :=
  C2_stream_invariants [StreamEvent.chunk 1 true, StreamEvent.updateEnd true,
    StreamEvent.readerDone, StreamEvent.checkEOS]

/-- C2 counterexample to the claim as stated: a failed appendBuffer attempt
puts the chunk back on the queue, and it is retried only when a later chunk
arrival or updateend runs processQueue again; here the stream ends right
after the failure, no such trigger remains, and the end-of-stream poll —
which only checks the appending flags — finalizes the stream while the
pending-chunk queue is still non-empty. -/
theorem C2_counterexample :
    (runStream [StreamEvent.chunk 1 true, StreamEvent.chunk 2 true,
      StreamEvent.updateEnd false, StreamEvent.readerDone,
      StreamEvent.checkEOS]).finalized = true ∧
    (runStream [StreamEvent.chunk 1 true, StreamEvent.chunk 2 true,
      StreamEvent.updateEnd false, StreamEvent.readerDone,
      StreamEvent.checkEOS]).queue = [2] := by
  constructor <;> rfl

/-- Component-level resources and flags of BudgetPlanner's playback: the
refs (stream reader, audio element, MediaSource, SourceBuffer), the
listeners attached to them, the pending queue and the flags.
`readerCancelled` records that cancel() was called on the currently held
reader before its ref was released; `audioOnEnded` and
`sbUpdateEndListener` record that the onended-listener of the audio element
and the updateend listener of the SourceBuffer are attached. -/
structure PlayerState where
  queue : List Nat
  isAppending : Bool
  reader : Bool
  readerCancelled : Bool
  audioElem : Bool
  audioOnEnded : Bool
  audioSrcSet : Bool
  msAttached : Bool
  msOpen : Bool
  sbAttached : Bool
  sbUpdateEndListener : Bool
  isSpeaking : Bool
deriving DecidableEq, Repr

/-- Fresh component state: no refs, no listeners, nothing queued. -/
def initPlayer : PlayerState :=
  { queue := [], isAppending := false, reader := false, readerCancelled := false,
    audioElem := false, audioOnEnded := false, audioSrcSet := false,
    msAttached := false, msOpen := false, sbAttached := false,
    sbUpdateEndListener := false, isSpeaking := false }

/-- BudgetPlanner.stopPlayback, in source order: cancel and release the
stream reader if one is held; pause the audio element and clear its src if
one exists; remove the SourceBuffer and end the MediaSource if the latter is
open; null the MediaSource and SourceBuffer refs; clear the pending queue;
drop the appending and speaking flags.  No removeEventListener call occurs
anywhere in it, and the audio element itself is kept for reuse. -/
def stopPlayback (s : PlayerState) : PlayerState :=
  let s1 := if s.reader = true then { s with reader := false, readerCancelled := true }
            else s
  let s2 := if s1.audioElem = true then { s1 with audioSrcSet := false } else s1
  let s3 := if s2.msAttached = true ∧ s2.msOpen = true then { s2 with msOpen := false }
            else s2
  { s3 with
    msAttached := false
    sbAttached := false
    queue := []
    isAppending := false
    isSpeaking := false }

/-- The start branch of togglePlayback up to creating the MediaSource: raise
the speaking flag, clear the queue and the appending flag, lazily create the
audio element and attach its onended listener (attached once and for all),
then attach a fresh MediaSource whose object URL becomes the audio src. -/
def startPlaybackSetup (s : PlayerState) : PlayerState :=
  let s1 := { s with isSpeaking := true, queue := [], isAppending := false }
  let s2 := if s1.audioElem = true then s1
            else { s1 with audioElem := true, audioOnEnded := true }
  { s2 with msAttached := true, msOpen := false, audioSrcSet := true }

/-- The sourceopen handler prelude: the MediaSource opens, a SourceBuffer is
added with its updateend listener attached, and the synthesis response's
stream reader is acquired and stored. -/
def sourceOpenSetup (s : PlayerState) : PlayerState :=
  { s with
    msOpen := true
    sbAttached := true
    sbUpdateEndListener := true
    reader := true
    readerCancelled := false }

/-- C3: from every state, the common teardown routine empties the
pending-chunk queue, drops the appending and speaking flags, cancels and
releases the held stream reader, and releases the MediaSource and
SourceBuffer refs; it detaches no event listener — the audio element's
onended listener and the discarded SourceBuffer's updateend listener remain
exactly as they were. -/
theorem C3_teardown (s : PlayerState) :
    (stopPlayback s).queue = [] ∧
    (stopPlayback s).isAppending = false ∧
    (stopPlayback s).reader = false ∧
    (s.reader = true → (stopPlayback s).readerCancelled = true) ∧
    (stopPlayback s).isSpeaking = false ∧
    (stopPlayback s).msAttached = false ∧
    (stopPlayback s).sbAttached = false ∧
    (stopPlayback s).audioOnEnded = s.audioOnEnded ∧
    (stopPlayback s).sbUpdateEndListener = s.sbUpdateEndListener := by
  obtain ⟨qu, ap, rd, rc, ae, aoe, asrc, msA, msO, sbA, sbL, sp⟩ := s
  cases rd <;> cases ae <;> cases msA <;> cases msO <;> simp [stopPlayback]

/-- C3 witness: the teardown applied to the fresh component state. -/
theorem C3_witness :
    (stopPlayback initPlayer).queue = [] ∧
    (stopPlayback initPlayer).isAppending = false ∧
    (stopPlayback initPlayer).reader = false ∧
    (initPlayer.reader = true → (stopPlayback initPlayer).readerCancelled = true) ∧
    (stopPlayback initPlayer).isSpeaking = false ∧
    (stopPlayback initPlayer).msAttached = false ∧
    (stopPlayback initPlayer).sbAttached = false ∧
    (stopPlayback initPlayer).audioOnEnded = initPlayer.audioOnEnded ∧
    (stopPlayback initPlayer).sbUpdateEndListener = initPlayer.sbUpdateEndListener :=
  C3_teardown initPlayer

/-- C3 counterexample to the claim as stated: cancelling right after a
playback start does clear the queue and release the reader, but the audio
element's onended listener (and the dropped SourceBuffer's updateend
listener) are still attached — the teardown never calls
removeEventListener. -/
theorem C3_counterexample :
    (stopPlayback (sourceOpenSetup (startPlaybackSetup initPlayer))).queue = [] ∧
    (stopPlayback (sourceOpenSetup (startPlaybackSetup initPlayer))).reader = false ∧
    (stopPlayback (sourceOpenSetup (startPlaybackSetup initPlayer))).audioOnEnded = true ∧
    (stopPlayback (sourceOpenSetup (startPlaybackSetup initPlayer))).sbUpdateEndListener =
      true := by
  refine ⟨rfl, rfl, rfl, rfl⟩

/-- Field selector of an expense row (types.ts ActiveInput). -/
inductive ExpenseField where
  | category
  | amount
deriving DecidableEq, Repr

/-- The active input target (types.ts ActiveInput): the form field the next
recognized utterance should populate.  The root-level App.tsx variant has no
notes alternative. -/
inductive ActiveTarget where
  | income
  | expense (id : String) (field : ExpenseField)
  | notes
deriving DecidableEq, Repr

/-- The BudgetPlanner component state touched by speech recognition: the
form fields plus the listening flag, the active input target and the error
message. -/
structure PlannerForm where
  income : String
  expenses : List Expense
  userNotes : String
  isListening : Bool
  activeInput : Option ActiveTarget
  errorMsg : Option String
deriving DecidableEq, Repr

/-- BudgetPlanner.startListening with an available recognizer: when already
listening it only stops the recognizer (no state change until the end
event); otherwise it records the target and raises the listening flag. -/
def startListening (target : ActiveTarget) (s : PlannerForm) : PlannerForm :=
  if s.isListening = true then s
  else { s with activeInput := some target, isListening := true }

/-- The recognition error listener in BudgetPlanner's effect: surface the
error message and drop the listening flag; the active input target is not
touched. -/
def handleRecognitionError (code : String) (s : PlannerForm) : PlannerForm :=
  { s with
    errorMsg := some ("Speech recognition error: " ++ code)
    isListening := false }

/-- The recognition end listener: drop the listening flag, nothing else. -/
def handleRecognitionEnd (s : PlannerForm) : PlannerForm :=
  { s with isListening := false }

/-- transcript.replace with the all-non-numeric pattern: keep only the
digits and dots of the transcript. -/
def stripNonNumeric (t : String) : String :=
  String.mk (t.data.filter (fun c => c.isDigit || c == '.'))

/-- The number at the head of a character list, after the first capture
group of the amount pattern: a maximal run of digits, then optionally a dot
followed by a further maximal run of digits (the dot only when at least one
digit follows it). -/
def numberHere (l : List Char) : List Char :=
  let ds := l.takeWhile Char.isDigit
  let rest := l.dropWhile Char.isDigit
  match rest with
  | '.' :: r2 =>
    let fs := r2.takeWhile Char.isDigit
    if fs = [] then ds else ds ++ '.' :: fs
  | _ => ds

/-- First match of the amount pattern in a character list: scan to the first
digit and take the number starting there; empty when no digit occurs. -/
def findNumber : List Char → List Char
  | [] => []
  | c :: cs => if c.isDigit then numberHere (c :: cs) else findNumber cs

/-- transcript.match with the amount pattern followed by the empty-string
fallback, as in BudgetPlanner.handleRecognitionResult for amount fields. -/
def firstNumberMatch (t : String) : String := String.mk (findNumber t.data)

/-- Writing one field of an expense row (the computed-property spread in
handleExpenseChange). -/
def setExpenseField (field : ExpenseField) (value : String) (e : Expense) : Expense :=
  match field with
  | ExpenseField.category => { e with category := value }
  | ExpenseField.amount => { e with amount := value }

/-- BudgetPlanner.handleExpenseChange: rewrite the given field of every
expense row whose identifier matches (row identifiers are unique in
practice, being crypto.randomUUID values). -/
def handleExpenseChange (id : String) (field : ExpenseField) (value : String)
    (s : PlannerForm) : PlannerForm :=
  { s with
    expenses := s.expenses.map
      (fun e => if e.id = id then setExpenseField field value e else e) }

/-- BudgetPlanner.handleRecognitionResult: route the transcript to the
active target; the income field gets the non-numeric characters stripped,
an expense amount field gets the first decimal-number match of the
transcript (empty when there is none), a category field gets the transcript
verbatim, and the notes field appends the transcript. -/
def handleRecognitionResult (transcript : String) (s : PlannerForm) : PlannerForm :=
  match s.activeInput with
  | none => s
  | some ActiveTarget.income => { s with income := stripNonNumeric transcript }
  | some (ActiveTarget.expense id field) =>
    let value := match field with
      | ExpenseField.amount => firstNumberMatch transcript
      | ExpenseField.category => transcript
    handleExpenseChange id field value s
  | some ActiveTarget.notes =>
    { s with userNotes :=
        (if s.userNotes = "" then "" else s.userNotes ++ " ") ++ transcript }

/-- The root-level App.tsx variant of handleRecognitionResult: amount fields
go through the same character stripping as the income field (its ActiveInput
type has no notes alternative, so that branch cannot arise there). -/
def handleRecognitionResultRoot (transcript : String) (s : PlannerForm) : PlannerForm :=
  match s.activeInput with
  | none => s
  | some ActiveTarget.income => { s with income := stripNonNumeric transcript }
  | some (ActiveTarget.expense id field) =>
    let value := match field with
      | ExpenseField.amount => stripNonNumeric transcript
      | ExpenseField.category => transcript
    handleExpenseChange id field value s
  | some ActiveTarget.notes => s

/-- Initial BudgetPlanner form state; the two seeded expense rows carry
fixed identifiers in place of crypto.randomUUID values. -/
def initForm : PlannerForm :=
  { income := "",
    expenses := [{ id := "r1", category := "Rent", amount := "1200" },
      { id := "g1", category := "Groceries", amount := "400" }],
    userNotes := "", isListening := false, activeInput := none, errorMsg := none }

/-- C4: on a recognition error and on a natural end alike, the listening
flag is dropped; the active input target is left exactly as it was (it is
not cleared), and the form fields are untouched; the error listener
additionally surfaces the error message. -/
theorem C4_end_error_reset (s : PlannerForm) (code : String) :
    (handleRecognitionEnd s).isListening = false ∧
    (handleRecognitionEnd s).activeInput = s.activeInput ∧
    (handleRecognitionEnd s).income = s.income ∧
    (handleRecognitionEnd s).expenses = s.expenses ∧
    (handleRecognitionEnd s).userNotes = s.userNotes ∧
    (handleRecognitionError code s).isListening = false ∧
    (handleRecognitionError code s).activeInput = s.activeInput ∧
    (handleRecognitionError code s).errorMsg =
      some ("Speech recognition error: " ++ code) :=
  ⟨rfl, rfl, rfl, rfl, rfl, rfl, rfl, rfl⟩

/-- C4 counterexample to the claim as stated: after starting to listen on
the income field, the end event drops the listening flag but the active
input target stays set instead of being cleared. -/
theorem C4_counterexample :
    (handleRecognitionEnd (startListening ActiveTarget.income initForm)).isListening =
      false ∧
    (handleRecognitionEnd (startListening ActiveTarget.income initForm)).activeInput =
      some ActiveTarget.income := by
  refine ⟨rfl, rfl⟩

/-- No digits in the scanned characters means no match. -/
theorem findNumber_eq_nil (l : List Char) (h : ∀ c ∈ l, c.isDigit = false) :
    findNumber l = [] := by
  induction l with
  | nil => rfl
  | cons c cs ih =>
    have hc : c.isDigit = false := h c (List.mem_cons_self c cs)
    rw [findNumber, if_neg (by simp [hc])]
    exact ih (fun c2 hc2 => h c2 (List.mem_cons_of_mem c hc2))

/-- C5: a recognition result delivered while the active target is a specific
expense's amount field updates exactly that expense's amount (every other
position of the expense list, and the income and notes fields, are
unchanged), and the assigned value is the first decimal-number match of the
transcript — empty when the transcript holds no digit at all. -/
theorem C5_amount_routing (s : PlannerForm) (eid transcript : String)
    (k : Fin s.expenses.length)
    (htgt : s.activeInput = some (ActiveTarget.expense eid ExpenseField.amount))
    (hid : (s.expenses.get k).id = eid)
    (hnodup : (s.expenses.map Expense.id).Nodup) :
    (handleRecognitionResult transcript s).income = s.income ∧
    (handleRecognitionResult transcript s).userNotes = s.userNotes ∧
    (handleRecognitionResult transcript s).expenses.get? k.1 =
      some { s.expenses.get k with amount := firstNumberMatch transcript } ∧
    (∀ j : Nat, j ≠ k.1 →
      (handleRecognitionResult transcript s).expenses.get? j = s.expenses.get? j) ∧
    ((∀ c ∈ transcript.data, c.isDigit = false) → firstNumberMatch transcript = "") := by
  have hres : handleRecognitionResult transcript s =
      handleExpenseChange eid ExpenseField.amount (firstNumberMatch transcript) s := by
    rw [handleRecognitionResult, htgt]
  have hmap : (handleExpenseChange eid ExpenseField.amount
        (firstNumberMatch transcript) s).expenses =
      s.expenses.map (fun e => if e.id = (s.expenses.get k).id then
        setExpenseField ExpenseField.amount (firstNumberMatch transcript) e else e) := by
    rw [hid]
    rfl
  refine ⟨by rw [hres]; rfl, by rw [hres]; rfl, ?_, ?_, ?_⟩
  · rw [hres, hmap]
    exact map_replace_get?_eq Expense.id
      (setExpenseField ExpenseField.amount (firstNumberMatch transcript)) s.expenses k
  · intro j hj
    rw [hres, hmap]
    exact map_replace_get?_ne Expense.id
      (setExpenseField ExpenseField.amount (firstNumberMatch transcript)) s.expenses
      hnodup k j hj
  · intro hnd
    show String.mk (findNumber transcript.data) = ""
    rw [findNumber_eq_nil transcript.data hnd]

/-- Concrete form whose active target is the seeded rent row's amount. -/
def amountForm : PlannerForm :=
  { income := "", expenses := [{ id := "e1", category := "Rent", amount := "0" }],
    userNotes := "", isListening := true,
    activeInput := some (ActiveTarget.expense "e1" ExpenseField.amount),
    errorMsg := none }

/-- C5 witness: the routing theorem applied to a concrete form and the
transcript 1 2. -/
theorem C5_witness :
    (handleRecognitionResult "1 2" amountForm).income = amountForm.income ∧
    (handleRecognitionResult "1 2" amountForm).userNotes = amountForm.userNotes ∧
    (handleRecognitionResult "1 2" amountForm).expenses.get? 0 =
      some { amountForm.expenses.get ⟨0, by decide⟩ with amount := firstNumberMatch "1 2" } ∧
    (∀ j : Nat, j ≠ 0 →
      (handleRecognitionResult "1 2" amountForm).expenses.get? j =
        amountForm.expenses.get? j) ∧
    ((∀ c ∈ "1 2".data, c.isDigit = false) → firstNumberMatch "1 2" = "") :=
  C5_amount_routing amountForm "e1" "1 2" ⟨0, by decide⟩ rfl (by decide) (by decide)

/-- C5 counterexample to the claim as stated: for the transcript 1 2 the
planner assigns the first number match 1, not the stripped digit string 12,
to the amount field. -/
theorem C5_counterexample :
    (handleRecognitionResult "1 2" amountForm).expenses =
      [{ id := "e1", category := "Rent", amount := "1" }] ∧
    stripNonNumeric "1 2" = "12" ∧
    ("1" : String) ≠ "12" := by
  refine ⟨rfl, rfl, by decide⟩

end BudgetApp
